import Mathlib

/-!
Verification of the resume-coach RAG backend (`backend/` of the repository)
against its natural-language specification.

Texts manipulated by the Python code are modelled as `List Char`; Python
`str` slicing `s[a:b]` (with non-negative bounds) becomes
`(l.drop a).take (b - a)`.  External collaborators (the generative model,
the embedding model, `hashlib.sha256`, `json.loads`) are taken as explicit
function parameters: the theorems quantify over them, so they hold for any
behaviour of the collaborator.
-/

/-- ASCII whitespace test, modelling the characters removed by Python
`str.strip()` for the ASCII range. -/
def pyWhitespace (c : Char) : Bool :=
  c = ' ' || c = '\t' || c = '\n' || c = '\x0d' || c = '\x0b' || c = '\x0c'

/-- Model of Python `str.strip()`: remove leading and trailing whitespace. -/
def pyStrip (l : List Char) : List Char :=
  ((l.dropWhile pyWhitespace).reverse.dropWhile pyWhitespace).reverse

/-- Model of Python `str.upper()` (ASCII case mapping). -/
def pyUpper (l : List Char) : List Char :=
  l.map Char.toUpper

/-- Model of Python substring containment `needle in hay`. -/
def containsSub (needle : List Char) : List Char → Bool
  | [] => needle.isEmpty
  | c :: rest => needle.isPrefixOf (c :: rest) || containsSub needle rest

/-! ## Chunker — `backend/pdf_utils.py`, `chunk_text` (lines 18-28)

The Python loop

    while start < len(text):
        end = start + chunk_size
        chunk = text[start:end]
        chunks.append(chunk)
        start = end - overlap

is embedded with explicit fuel, since for `overlap ≥ chunk_size` the loop
does not terminate.  One unit of fuel is spent per iteration; `chunk_text`
supplies `text.length + 1` units, which the fuel-congruence lemma below
shows to be enough whenever `overlap < size`. -/

/-- Fuel-indexed body of the `chunk_text` loop, starting at offset `start`. -/
def chunkTextFuel (fuel : Nat) (text : List Char) (size overlap start : Nat) :
    List (List Char) :=
  match fuel with
  | 0 => []
  | fuel + 1 =>
    if start < text.length then
      ((text.drop start).take size) ::
        chunkTextFuel fuel text size overlap (start + size - overlap)
    else []

/-- Model of `chunk_text(text, chunk_size, overlap)` from `backend/pdf_utils.py`
(the call sites use the default arguments `chunk_size=500`, `overlap=50`). -/
def chunk_text (text : List Char) (size overlap : Nat) : List (List Char) :=
  chunkTextFuel (text.length + 1) text size overlap 0

/-- Reconstruction used by the round-trip property: keep the first chunk
whole and strip the leading `overlap` characters of every later chunk,
then concatenate. -/
def dechunk (overlap : Nat) : List (List Char) → List Char
  | [] => []
  | c :: cs => c ++ (cs.map (List.drop overlap)).flatten

/-! ## Resume classifier — `backend/pdf_utils.py`, `is_probable_resume`
(lines 91-99): parsing of the model verdict. -/

/-- The verdict-parsing tail of `is_probable_resume`: given the raw model
response text, compute `raw = response.strip().upper()` and apply

    if "YES" in raw and "NO" not in raw: return True
    if "NO" in raw and "YES" not in raw: return False
    return False
-/
def is_probable_resume_verdict (response : List Char) : Bool :=
  let raw := pyUpper (pyStrip response)
  if containsSub ['Y', 'E', 'S'] raw && !(containsSub ['N', 'O'] raw) then
    true
  else if containsSub ['N', 'O'] raw && !(containsSub ['Y', 'E', 'S'] raw) then
    false
  else
    false

/-! ## JSON values and the analysis normalizer — `backend/coach_logic.py`,
`analyze_resume` (lines 83-135): everything after the generative call.

`json.loads` is an external library call and is passed in as a function
`jsonLoads : List Char → Option JsonVal` (`none` models a parse
exception, which the code catches and replaces by `{}`). -/

/-- Model of a parsed Python JSON value (numbers restricted to integers;
no claim depends on fractional values). An object is the association list
of its fields; `json.loads` never produces duplicate keys, and lookups
take the first occurrence. -/
inductive JsonVal where
  | null
  | bool (b : Bool)
  | num (n : Int)
  | str (s : String)
  | arr (elems : List JsonVal)
  | obj (fields : List (String × JsonVal))

/-- Python truthiness of a JSON value (`bool(x)`). -/
def truthy : JsonVal → Bool
  | .null => false
  | .bool b => b
  | .num n => n != 0
  | .str s => s != ""
  | .arr xs => !xs.isEmpty
  | .obj fs => !fs.isEmpty

/-- Model of `get2(obj, snake, camel, default)` from `analyze_resume`:
`obj.get(snake) if snake in obj else obj.get(camel, default)`. -/
def get2 (data : List (String × JsonVal)) (snake camel : String)
    (dflt : JsonVal) : JsonVal :=
  match data.lookup snake with
  | some v => v
  | none => (data.lookup camel).getD dflt

/-- Python `x or []` applied to a JSON value. -/
def orEmptyList (v : JsonVal) : JsonVal :=
  if truthy v then v else .arr []

/-- The all-default analysis structure returned when the model response is
empty (`if not raw`), lines 88-99 of `coach_logic.py`. -/
def defaultAnalysis : List (String × JsonVal) :=
  [("overall_score", .null),
   ("score_label", .str ""),
   ("top_skills", .arr []),
   ("role_fit", .arr []),
   ("experience_level", .str ""),
   ("years_experience", .null),
   ("project_count", .null),
   ("companies_count", .null),
   ("gaps", .arr []),
   ("quick_wins", .arr [])]

/-- The `result = { ... }` dict built at lines 121-132 of
`coach_logic.py`, from the parsed object `data`. -/
def analyzeFields (data : List (String × JsonVal)) : List (String × JsonVal) :=
  [("overall_score", get2 data "overall_score" "overallScore" .null),
   ("score_label", get2 data "score_label" "scoreLabel" (.str "")),
   ("top_skills", orEmptyList (get2 data "top_skills" "topSkills" (.arr []))),
   ("role_fit", orEmptyList (get2 data "role_fit" "roleFit" (.arr []))),
   ("experience_level", get2 data "experience_level" "experienceLevel" (.str "")),
   ("years_experience", get2 data "years_experience" "yearsExperience" .null),
   ("project_count", get2 data "project_count" "projectCount" .null),
   ("companies_count", get2 data "companies_count" "companiesCount" .null),
   ("gaps", orEmptyList (get2 data "gaps" "gaps" (.arr []))),
   ("quick_wins", orEmptyList (get2 data "quick_wins" "quickWins" (.arr [])))]

/-- The camelCase alias consulted by `analyze_resume` for each snake_case
result key. -/
def camelOf : String → String
  | "overall_score" => "overallScore"
  | "score_label" => "scoreLabel"
  | "top_skills" => "topSkills"
  | "role_fit" => "roleFit"
  | "experience_level" => "experienceLevel"
  | "years_experience" => "yearsExperience"
  | "project_count" => "projectCount"
  | "companies_count" => "companiesCount"
  | "gaps" => "gaps"
  | "quick_wins" => "quickWins"
  | _ => ""

/-- The opening brace character, written via its code point. -/
def lbrace : Char := Char.ofNat 123

/-- The closing brace character, written via its code point. -/
def rbrace : Char := Char.ofNat 125

/-- Index of the last occurrence of `c` in `l` (Python `str.rindex`,
as an `Option`). -/
def findLastIdx (l : List Char) (c : Char) : Option Nat :=
  (l.reverse.findIdx? (· = c)).map (fun k => l.length - 1 - k)

/-- Lines 104-109 of `coach_logic.py`:

    try:
        start = raw.index("{"); end = raw.rindex("}") + 1
        raw_json = raw[start:end]
    except ValueError:
        raw_json = raw
-/
def isolateBraces (raw : List Char) : List Char :=
  match raw.findIdx? (· = lbrace), findLastIdx raw rbrace with
  | some s, some e => (raw.drop s).take (e + 1 - s)
  | _, _ => raw

/-- The post-response part of `analyze_resume` (lines 83-135 of
`coach_logic.py`), for a single uncached call.  `respText` is `resp.text`
(`none` models Python `None`, so `(resp.text or "")` is `getD []`).
`Except.error ()` models an uncaught Python exception: when `json.loads`
succeeds but returns a non-dict value, every branch of `get2` raises
(`in` on a non-container raises `TypeError`; `.get` on a non-dict raises
`AttributeError`), so the request fails. -/
def analyze_resume_model (jsonLoads : List Char → Option JsonVal)
    (respText : Option (List Char)) :
    Except Unit (List (String × JsonVal)) :=
  let raw := pyStrip (respText.getD [])
  if raw.isEmpty then .ok defaultAnalysis
  else
    let raw_json := isolateBraces raw
    let data : JsonVal := (jsonLoads raw_json).getD (.obj [])
    match data with
    | .obj fields => .ok (analyzeFields fields)
    | _ => .error ()

/-! ## Vector store — `backend/vector_store.py`, `retrieve_texts`
(lines 32-99).

The Pinecone index is modelled as the list of stored records, each with
its metadata and its similarity score against the (fixed) query embedding
of the call; `index.query` returns the records matching the metadata
filter, ranked by score, truncated to `top_k` — the collaborator contract
of spec section 6.  The query embedding itself is an external call;
`embedOk` tells whether it returned a vector (`if not vecs: return []`).
Each embedding-model call and each index query issued is recorded in the
result, so the theorems can speak about which calls were made. -/

/-- A metadata filter condition: Pinecone equality or `$in` membership. -/
inductive FilterCond where
  | eq (v : String)
  | inSet (vs : List String)
deriving DecidableEq

/-- The `filter_dict` built by `retrieve_texts`: optional `doc_type`
condition, optional `file_id` equality. -/
structure MetaFilter where
  doc_type : Option FilterCond
  file_id : Option String
deriving DecidableEq

/-- One stored vector record / query match: its similarity score against
the call's query embedding, and its metadata. -/
structure Match where
  score : Int
  metadata : List (String × String)
deriving DecidableEq

/-- Whether a metadata value satisfies one filter condition (a record
missing the filtered field never matches). -/
def condHolds (c : FilterCond) (v : Option String) : Bool :=
  match c, v with
  | .eq w, some x => x = w
  | .inSet ws, some x => ws.contains x
  | _, none => false

/-- The optional `doc_type` part of a filter (absent condition always
holds). -/
def optDocTypeHolds (c : Option FilterCond) (v : Option String) : Bool :=
  match c with
  | none => true
  | some cond => condHolds cond v

/-- The optional `file_id` equality part of a filter (absent condition
always holds). -/
def optFileIdHolds (c : Option String) (v : Option String) : Bool :=
  match c with
  | none => true
  | some w => v == some w

/-- Whether a record's metadata satisfies the (optional) filter. -/
def matchesFilter (flt : Option MetaFilter) (md : List (String × String)) : Bool :=
  match flt with
  | none => true
  | some f =>
    optDocTypeHolds f.doc_type (md.lookup "doc_type") &&
    optFileIdHolds f.file_id (md.lookup "file_id")

/-- Descending-score order used to rank matches; ties keep list order
(both Python `sorted` and `List.insertionSort` are stable, so they agree
as functions). -/
def scoreDesc (a b : Match) : Prop := b.score ≤ a.score

instance : DecidableRel scoreDesc := fun a b => inferInstanceAs (Decidable (b.score ≤ a.score))

instance : IsTotal Match scoreDesc := ⟨fun a b => le_total b.score a.score⟩

instance : IsTrans Match scoreDesc := ⟨fun _ _ _ hab hbc => le_trans hbc hab⟩

/-- Model of `index.query(vector, top_k, filter)`: the matching records ranked by
similarity, truncated to `top_k` (spec section 6 collaborator contract). -/
def indexQuery (store : List Match) (flt : Option MetaFilter) (top_k : Nat) :
    List Match :=
  ((store.filter (fun m => matchesFilter flt m.metadata)).insertionSort scoreDesc).take top_k

/-- Lines 92-99 of `vector_store.py`:

    if not res.matches: return []
    matches = sorted(res.matches, key=lambda m: m.score, reverse=True)
    texts = [m.metadata.get("text", "") for m in matches]
    return texts
-/
def processMatches (res : List Match) : List String :=
  if res.isEmpty then []
  else (res.insertionSort scoreDesc).map (fun m => (m.metadata.lookup "text").getD "")

/-- Result of one `retrieve_texts` call: the returned texts, the number of
embedding-model calls made, and the filters of the index queries issued,
in order. -/
structure RetrieveResult where
  texts : List String
  embedCalls : Nat
  queries : List (Option MetaFilter)
deriving DecidableEq

/-- Python truthiness of the optional `file_id` argument
(`if file_id:`). -/
def pyTruthyOpt (s : Option String) : Bool :=
  match s with
  | none => false
  | some v => v != ""

/-- The `filter_dict` construction of lines 54-63 of `vector_store.py`. -/
def buildFilter (doc_types : List String) (file_id : Option String) : MetaFilter :=
  let f : MetaFilter := ⟨none, none⟩
  let f : MetaFilter :=
    if doc_types.isEmpty then f
    else if doc_types.length = 1 then ⟨some (.eq (doc_types.headD "")), f.file_id⟩
    else ⟨some (.inSet doc_types), f.file_id⟩
  if pyTruthyOpt file_id then ⟨f.doc_type, file_id⟩ else f

/-- Model of `retrieve_texts` from `backend/vector_store.py` (lines 32-99).
`embed_texts([query])` makes exactly one embedding call (its argument is
a non-empty list); `embedOk = false` models it returning no vector. -/
def retrieve_texts (store : List Match) (embedOk : Bool) (top_k : Nat)
    (doc_types : List String) (file_id : Option String)
    (allow_fallback : Bool) : RetrieveResult :=
  if !embedOk then ⟨[], 1, []⟩
  else
    let filter_dict := buildFilter doc_types file_id
    let filter_arg : Option MetaFilter :=
      if filter_dict = (⟨none, none⟩ : MetaFilter) then none else some filter_dict
    let res := indexQuery store filter_arg top_k
    let doFallback :=
      allow_fallback && res.isEmpty && pyTruthyOpt file_id && !doc_types.isEmpty
    let fallback_filter : Option MetaFilter := some ⟨some (.eq (doc_types.headD "")), none⟩
    let res2 := if doFallback then indexQuery store fallback_filter top_k else res
    let queries := if doFallback then [filter_arg, fallback_filter] else [filter_arg]
    ⟨processMatches res2, 1, queries⟩

/-- Modelled from the spec: `retrieve_texts` as sections 4.7 and 8 of the
spec describe the fallback — "retry once with only the `doc_type`
filter", with the doc_type filter "constructed per 4.6" (equality for one
requested doc_type, `$in` for several).  It differs from the code only in
`fallback_filter`. -/
def retrieve_texts_specFallback (store : List Match) (embedOk : Bool) (top_k : Nat)
    (doc_types : List String) (file_id : Option String)
    (allow_fallback : Bool) : RetrieveResult :=
  if !embedOk then ⟨[], 1, []⟩
  else
    let filter_dict := buildFilter doc_types file_id
    let filter_arg : Option MetaFilter :=
      if filter_dict = (⟨none, none⟩ : MetaFilter) then none else some filter_dict
    let res := indexQuery store filter_arg top_k
    let doFallback :=
      allow_fallback && res.isEmpty && pyTruthyOpt file_id && !doc_types.isEmpty
    let fallback_filter : Option MetaFilter := some (buildFilter doc_types none)
    let res2 := if doFallback then indexQuery store fallback_filter top_k else res
    let queries := if doFallback then [filter_arg, fallback_filter] else [filter_arg]
    ⟨processMatches res2, 1, queries⟩

/-! ## Chat endpoint — `backend/main.py`, `chat` (lines 171-222). -/

/-- Outcome of one `/chat` request: the response string, whether the
generative model was called (`generate_reply`), and how many
embedding-model calls were made. -/
structure ChatOutcome where
  response : String
  generativeCalled : Bool
  embedCalls : Nat
deriving DecidableEq

/-- The slightly-smiling-face character (U+1F642) used in the chat
messages, written via its code point. -/
def slightSmile : String := String.mk [Char.ofNat 128578]

/-- The pointing-right character (U+1F449) used in the chat messages,
written via its code point. -/
def pointRight : String := String.mk [Char.ofNat 128073]

/-- The fixed message returned when the request carries no `file_id`
(line 178 of `main.py`). -/
def chatMsgNoFile : String :=
  "Please upload a valid resume in PDF format before we start chatting. " ++ slightSmile

/-- The fixed instructional message returned when no resume chunks are
linked to the `file_id` (lines 193-197 of `main.py`). -/
def chatMsgNoResume : String :=
  "I couldn\x27t find any valid resume content linked to this chat.\n\n" ++
  pointRight ++
  " Please upload your actual resume in **PDF format** and then try asking your question again.\nRight now it looks like you might have uploaded a random or non-resume PDF. " ++
  slightSmile

/-- The `chat` handler of `backend/main.py`.  `reply` is the text the
generative model would return for `generate_reply` (external call);
`store` holds the index records with their similarity scores. -/
def chat_model (store : List Match) (embedOk : Bool) (reply : String)
    (file_id : String) : ChatOutcome :=
  if file_id = "" then ⟨chatMsgNoFile, false, 0⟩
  else
    let r1 := retrieve_texts store embedOk 5 ["resume_chunk"] (some file_id) false
    if r1.texts.isEmpty then ⟨chatMsgNoResume, false, r1.embedCalls⟩
    else
      let r2 := retrieve_texts store embedOk 3 ["coach_qa"] none false
      ⟨reply, true, r1.embedCalls + r2.embedCalls⟩

/-! ## Analysis cache — `backend/db.py` (lines 80-116) and the caching
segment of `upload_resume` in `backend/main.py` (lines 90-141).

The `resumes` table is modelled as an association list from `resume_hash`
to `(analysis, model_name)`; the primary key is unique, which the
upsert maintains by removing any row with the same key.  Storing an
analysis serializes it with `json.dumps` and reading parses it back with
`json.loads`; this round-trip is the identity on the values the code
stores, so the model keeps the value itself.  The analysis payload type
is an arbitrary `α`; `hashlib.sha256(...).hexdigest()` is an external
library function and enters as a parameter `sha256hex`. -/

/-- Model of `get_resume_analysis` from `backend/db.py`: `(analysis, model_name)`
for the hash, or `(none, none)` when not cached. -/
def get_resume_analysis {α : Type} (db : List (String × α × String))
    (resume_hash : String) : Option α × Option String :=
  match db.lookup resume_hash with
  | some (a, m) => (some a, some m)
  | none => (none, none)

/-- Model of `save_resume_analysis` from `backend/db.py`: insert-or-overwrite on
the `resume_hash` primary key. -/
def save_resume_analysis {α : Type} (db : List (String × α × String))
    (resume_hash : String) (analysis : α) (model_name : String) :
    List (String × α × String) :=
  (resume_hash, analysis, model_name) :: db.filter (fun row => row.1 ≠ resume_hash)

/-- Outcome of the caching segment of one `/upload_resume` request. -/
structure UploadOutcome (α : Type) where
  resume_hash : Option String
  analysis : Option α
  db : List (String × α × String)
  analyzeCalled : Bool

/-- Lines 90-141 of `backend/main.py`: hash computation, persistent-cache
lookup, and the call to `analyze_resume` on a miss.  `is_valid_resume` is
the classifier's verdict (an external generative call), `analyzeFn` the
behaviour of `analyze_resume` (called only on a cache miss), `sha256hex`
the hash function.  `analysis = none` in the invalid branch stands for
the fixed "could not detect" string of lines 158-161, which is not an
`α`-value. -/
def upload_resume_model {α : Type} (sha256hex : String → String)
    (analyzeFn : String → α) (text : String) (is_valid_resume : Bool)
    (db : List (String × α × String)) : UploadOutcome α :=
  let resume_hash : Option String :=
    if (pyStrip text.toList).isEmpty then none else some (sha256hex text)
  if is_valid_resume then
    let cached : Option α :=
      match resume_hash with
      | some rh => (get_resume_analysis db rh).1
      | none => none
    match cached with
    | some a => ⟨resume_hash, some a, db, false⟩
    | none =>
      let a := analyzeFn text
      let db2 :=
        match resume_hash with
        | some rh => save_resume_analysis db rh a "resume-coach-llm"
        | none => db
      ⟨resume_hash, some a, db2, true⟩
  else ⟨resume_hash, none, db, false⟩

/-! ## Helper lemmas about the chunker loop -/

/-- Once the offset has reached the end of the text the loop body returns
immediately, for any amount of fuel. -/
theorem chunkTextFuel_stop (fuel : Nat) (text : List Char) (size overlap start : Nat)
    (h : ¬ start < text.length) :
    chunkTextFuel fuel text size overlap start = [] := by
  cases fuel with
  | zero => rfl
  | succ f => simp [chunkTextFuel, h]

/-- With `overlap < size` the loop result does not depend on the fuel, as
soon as the fuel exceeds the number of remaining offsets. -/
theorem chunkTextFuel_congr (text : List Char) (size overlap : Nat)
    (hso : overlap < size) :
    ∀ f₁ f₂ start, text.length - start < f₁ → text.length - start < f₂ →
      chunkTextFuel f₁ text size overlap start = chunkTextFuel f₂ text size overlap start := by
  intro f₁
  induction f₁ with
  | zero => intro f₂ start h1 _; omega
  | succ f ih =>
    intro f₂ start h1 h2
    cases f₂ with
    | zero => omega
    | succ f₂ =>
      by_cases hs : start < text.length
      · simp only [chunkTextFuel, hs, if_true]
        exact congrArg _ (ih f₂ (start + size - overlap) (by omega) (by omega))
      · simp [chunkTextFuel, hs]

/-- Flattening the overlap-stripped chunks produced from offset `start`
yields the text from offset `start + overlap` on. -/
theorem chunkTextFuel_dechunk_tail (text : List Char) (size overlap : Nat)
    (hso : overlap < size) :
    ∀ fuel start, text.length - start < fuel →
      ((chunkTextFuel fuel text size overlap start).map (List.drop overlap)).flatten
        = text.drop (start + overlap) := by
  intro fuel
  induction fuel with
  | zero => intro start h; omega
  | succ f ih =>
    intro start h
    by_cases hs : start < text.length
    · simp only [chunkTextFuel, hs, if_true, List.map_cons, List.flatten_cons]
      rw [ih (start + size - overlap) (by omega)]
      have e1 : List.drop overlap (List.take size (List.drop start text))
          = List.take (size - overlap) (List.drop (start + overlap) text) := by
        rw [List.drop_take, List.drop_drop]
      have e2 : text.drop (start + size - overlap + overlap)
          = List.drop (size - overlap) (text.drop (start + overlap)) := by
        rw [List.drop_drop]
        congr 1
        omega
      rw [e1, e2, List.take_append_drop]
    · rw [chunkTextFuel_stop _ _ _ _ _ hs]
      have : text.length ≤ start + overlap := by omega
      simp [List.drop_eq_nil_of_le this]

/-- C8: for every input text, `chunk_text` terminates whenever
`overlap < size` — the window start strictly advances each iteration, so
any fuel beyond `text.length` produces the same (finished) result as the
fuel actually supplied by `chunk_text`. -/
theorem chunk_text_terminates (text : List Char) (size overlap fuel : Nat)
    (hso : overlap < size) (hfuel : text.length < fuel) :
    chunkTextFuel fuel text size overlap 0 = chunk_text text size overlap := by
  unfold chunk_text
  exact chunkTextFuel_congr text size overlap hso fuel (text.length + 1) 0
    (by omega) (by omega)

theorem chunk_text_terminates_witness :
    1 < 3 ∧ (7 : Nat) < 100 ∧
      chunkTextFuel 100 ['a', 'b', 'c', 'd', 'e', 'f', 'g'] 3 1 0 =
        chunk_text ['a', 'b', 'c', 'd', 'e', 'f', 'g'] 3 1 :=
  ⟨by decide, by decide,
    chunk_text_terminates ['a', 'b', 'c', 'd', 'e', 'f', 'g'] 3 1 100
      (by decide) (by decide)⟩

set_option maxRecDepth 100000 in
/-- C2 (counterexample): the spec's degenerate case fails on the code.
The empty text gives zero chunks, not one; and a 460-character text —
whose length is at most `size = 500` — gives two chunks, because after
the first window the offset advances to `size - overlap = 450 < 460`. -/
theorem chunk_text_degenerate_cex :
    (chunk_text [] 500 50).length = 0 ∧
    ((List.replicate 460 'a').length ≤ 500 ∧
      (chunk_text (List.replicate 460 'a') 500 50).length = 2) := by
  refine ⟨rfl, by simp, ?_⟩
  decide

/-- C2 (amended): `chunk_text` with the default `size = 500`,
`overlap = 50` returns exactly one chunk, equal to the whole input text,
when `0 < length ≤ size - overlap = 450` (the empty text yields no
chunks, and lengths in `(450, 500]` yield a second, residual chunk). -/
theorem chunk_text_degenerate (text : List Char) (h0 : 0 < text.length)
    (h1 : text.length ≤ 450) :
    chunk_text text 500 50 = [text] := by
  unfold chunk_text
  simp only [chunkTextFuel, h0, if_true, List.drop_zero]
  rw [chunkTextFuel_stop _ _ _ _ _ (by omega), List.take_of_length_le (by omega)]

theorem chunk_text_degenerate_witness :
    0 < (['h', 'i'] : List Char).length ∧ (['h', 'i'] : List Char).length ≤ 450 ∧
      chunk_text ['h', 'i'] 500 50 = [['h', 'i']] :=
  ⟨by decide, by decide, chunk_text_degenerate ['h', 'i'] (by decide) (by decide)⟩

/-- C9: for every text and every `overlap < size`, concatenating the
chunks produced by `chunk_text` after removing each subsequent chunk's
leading `overlap` characters reconstructs the original text exactly. -/
theorem chunk_text_roundtrip (text : List Char) (size overlap : Nat)
    (hso : overlap < size) :
    dechunk overlap (chunk_text text size overlap) = text := by
  unfold chunk_text
  by_cases h0 : 0 < text.length
  · simp only [chunkTextFuel, h0, if_true, List.drop_zero, dechunk]
    rw [chunkTextFuel_dechunk_tail text size overlap hso text.length
      (0 + size - overlap) (by omega)]
    have e : 0 + size - overlap + overlap = size := by omega
    rw [e, List.take_append_drop]
  · rw [chunkTextFuel_stop _ _ _ _ _ h0]
    have : text = [] := List.eq_nil_of_length_eq_zero (by omega)
    rw [this]
    rfl

/-- C6: for every model response text, the classifier verdict is `true`
exactly when the stripped, uppercased response contains "YES" and does
not contain "NO"; in particular a response containing "NO" and not "YES"
yields `false`, and a response containing both or neither resolves to
`false` (not-a-resume). -/
theorem is_probable_resume_verdict_policy (response : List Char) :
    is_probable_resume_verdict response =
      (containsSub ['Y', 'E', 'S'] (pyUpper (pyStrip response)) &&
        !containsSub ['N', 'O'] (pyUpper (pyStrip response))) := by
  unfold is_probable_resume_verdict
  cases h1 : containsSub ['Y', 'E', 'S'] (pyUpper (pyStrip response)) <;>
    cases h2 : containsSub ['N', 'O'] (pyUpper (pyStrip response)) <;>
      simp [h1, h2]

/-! ## Helper lemmas about index queries and match processing -/

/-- A member of an index-query result is a stored record whose metadata
satisfies the filter. -/
theorem mem_indexQuery (store : List Match) (flt : Option MetaFilter) (k : Nat)
    (m : Match) (h : m ∈ indexQuery store flt k) :
    m ∈ store ∧ matchesFilter flt m.metadata = true := by
  unfold indexQuery at h
  have h1 := List.take_subset _ _ h
  have h2 := (List.perm_insertionSort scoreDesc _).mem_iff.mp h1
  exact List.mem_filter.mp h2

/-- If no stored record satisfies the filter, the query returns nothing. -/
theorem indexQuery_eq_nil (store : List Match) (flt : Option MetaFilter) (k : Nat)
    (h : ∀ m ∈ store, matchesFilter flt m.metadata = false) :
    indexQuery store flt k = [] := by
  unfold indexQuery
  have : store.filter (fun m => matchesFilter flt m.metadata) = [] := by
    rw [List.filter_eq_nil_iff]
    intro m hm
    simp [h m hm]
  rw [this]
  simp

/-- Every string produced by `processMatches` is the `"text"` metadata
(defaulted to `""`) of one of the matches. -/
theorem mem_processMatches (res : List Match) (s : String)
    (h : s ∈ processMatches res) :
    ∃ m ∈ res, s = (m.metadata.lookup "text").getD "" := by
  unfold processMatches at h
  by_cases hres : res = []
  · rw [hres] at h
    simp at h
  · have hemp : res.isEmpty = false := by
      cases res with
      | nil => exact absurd rfl hres
      | cons a l => rfl
    rw [hemp] at h
    simp only [Bool.false_eq_true, if_false, List.mem_map] at h
    obtain ⟨m, hm, heq⟩ := h
    exact ⟨m, (List.perm_insertionSort scoreDesc res).mem_iff.mp hm, heq.symm⟩

/-- C10: for every non-empty list of matches returned by the index query,
`processMatches` (lines 92-99 of `vector_store.py`) returns exactly one
string per match — the matches reordered descending by score, each mapped
to its `"text"` metadata — and a match whose metadata lacks the `"text"`
key contributes the empty string rather than being skipped or raising. -/
theorem processMatches_per_match (res : List Match) (hne : res ≠ []) :
    ∃ ranked : List Match,
      res.Perm ranked ∧
      List.Sorted scoreDesc ranked ∧
      processMatches res = ranked.map (fun m => (m.metadata.lookup "text").getD "") ∧
      (processMatches res).length = res.length ∧
      ∀ m ∈ res, m.metadata.lookup "text" = none → "" ∈ processMatches res := by
  have hemp : res.isEmpty = false := by
    cases res with
    | nil => exact absurd rfl hne
    | cons a l => rfl
  have hmap : processMatches res =
      (res.insertionSort scoreDesc).map (fun m => (m.metadata.lookup "text").getD "") := by
    unfold processMatches
    rw [hemp]
    rfl
  refine ⟨res.insertionSort scoreDesc,
    (List.perm_insertionSort scoreDesc res).symm,
    List.sorted_insertionSort scoreDesc res, hmap, ?_, ?_⟩
  · rw [hmap, List.length_map, (List.perm_insertionSort scoreDesc res).length_eq]
  · intro m hm hnone
    rw [hmap]
    refine List.mem_map.mpr ⟨m, (List.perm_insertionSort scoreDesc res).mem_iff.mpr hm, ?_⟩
    rw [hnone]
    rfl

theorem processMatches_per_match_witness :
    ((⟨5, []⟩ : Match) :: [⟨7, [("text", "t")]⟩] ≠ []) ∧
    ∃ ranked : List Match,
      ((⟨5, []⟩ : Match) :: [⟨7, [("text", "t")]⟩]).Perm ranked ∧
      List.Sorted scoreDesc ranked ∧
      processMatches ((⟨5, []⟩ : Match) :: [⟨7, [("text", "t")]⟩]) =
        ranked.map (fun m => (m.metadata.lookup "text").getD "") ∧
      (processMatches ((⟨5, []⟩ : Match) :: [⟨7, [("text", "t")]⟩])).length =
        ((⟨5, []⟩ : Match) :: [⟨7, [("text", "t")]⟩]).length ∧
      ∀ m ∈ (⟨5, []⟩ : Match) :: [⟨7, [("text", "t")]⟩],
        m.metadata.lookup "text" = none →
          "" ∈ processMatches ((⟨5, []⟩ : Match) :: [⟨7, [("text", "t")]⟩]) :=
  ⟨by decide, processMatches_per_match _ (by decide)⟩

/-- The filter built for a truthy `file_id` carries that `file_id`
equality condition. -/
theorem buildFilter_file_id (doc_types : List String) (fid : String)
    (hfid : fid ≠ "") :
    (buildFilter doc_types (some fid)).file_id = some fid := by
  have ht : pyTruthyOpt (some fid) = true := by
    simp [pyTruthyOpt, hfid]
  unfold buildFilter
  rw [ht]
  simp

/-- A record matching a filter whose `file_id` condition is `some fid`
stores `file_id = fid` in its metadata. -/
theorem matchesFilter_file_id (flt : MetaFilter) (md : List (String × String))
    (fid : String) (hflt : flt.file_id = some fid)
    (h : matchesFilter (some flt) md = true) :
    md.lookup "file_id" = some fid := by
  simp only [matchesFilter] at h
  rw [hflt] at h
  simp only [optFileIdHolds] at h
  have h2 := ((Bool.and_eq_true _ _).mp h).2
  simpa using h2

/-- C4: with `allow_fallback = False` and a (truthy) `file_id = A`, every
text returned by `retrieve_texts` is the `"text"` metadata of a stored
record whose metadata `file_id` equals `A`, and the single index query
issued carries the `file_id = A` equality condition — no second, relaxed
query is issued, so no chunk of another `file_id` is ever returned. -/
theorem retrieve_texts_isolation (store : List Match) (embedOk : Bool)
    (top_k : Nat) (doc_types : List String) (fid : String) (hfid : fid ≠ "") :
    (∀ s ∈ (retrieve_texts store embedOk top_k doc_types (some fid) false).texts,
      ∃ m ∈ store, m.metadata.lookup "file_id" = some fid ∧
        s = (m.metadata.lookup "text").getD "") ∧
    (retrieve_texts store embedOk top_k doc_types (some fid) false).queries.length ≤ 1 ∧
    (∀ q ∈ (retrieve_texts store embedOk top_k doc_types (some fid) false).queries,
      ∃ flt, q = some flt ∧ flt.file_id = some fid) := by
  cases embedOk with
  | false =>
    refine ⟨?_, ?_, ?_⟩ <;> simp [retrieve_texts]
  | true =>
    have hfd := buildFilter_file_id doc_types fid hfid
    have harg : (if buildFilter doc_types (some fid) = (⟨none, none⟩ : MetaFilter)
        then (none : Option MetaFilter) else some (buildFilter doc_types (some fid)))
        = some (buildFilter doc_types (some fid)) := by
      rw [if_neg]
      intro hcontra
      rw [hcontra] at hfd
      exact Option.noConfusion hfd
    have hre : retrieve_texts store true top_k doc_types (some fid) false =
        ⟨processMatches (indexQuery store (some (buildFilter doc_types (some fid))) top_k),
          1, [some (buildFilter doc_types (some fid))]⟩ := by
      unfold retrieve_texts
      simp only [harg, Bool.false_and, if_false, Bool.not_true]
      rfl
    rw [hre]
    refine ⟨?_, by simp, ?_⟩
    · intro s hs
      obtain ⟨m, hm, hext⟩ := mem_processMatches _ s hs
      obtain ⟨hstore, hmf⟩ := mem_indexQuery _ _ _ _ hm
      exact ⟨m, hstore, matchesFilter_file_id _ _ _ hfd hmf, hext⟩
    · intro q hq
      have : q = some (buildFilter doc_types (some fid)) := by simpa using hq
      exact ⟨buildFilter doc_types (some fid), this, hfd⟩

theorem retrieve_texts_isolation_witness :
    ("A" ≠ "") ∧
    ((∀ s ∈ (retrieve_texts
        [⟨3, [("doc_type", "resume_chunk"), ("file_id", "A"), ("text", "t1")]⟩]
        true 5 ["resume_chunk"] (some "A") false).texts,
      ∃ m ∈ [(⟨3, [("doc_type", "resume_chunk"), ("file_id", "A"), ("text", "t1")]⟩ : Match)],
        m.metadata.lookup "file_id" = some "A" ∧
        s = (m.metadata.lookup "text").getD "") ∧
    (retrieve_texts
        [⟨3, [("doc_type", "resume_chunk"), ("file_id", "A"), ("text", "t1")]⟩]
        true 5 ["resume_chunk"] (some "A") false).queries.length ≤ 1 ∧
    (∀ q ∈ (retrieve_texts
        [⟨3, [("doc_type", "resume_chunk"), ("file_id", "A"), ("text", "t1")]⟩]
        true 5 ["resume_chunk"] (some "A") false).queries,
      ∃ flt, q = some flt ∧ flt.file_id = some "A")) :=
  ⟨by decide,
    retrieve_texts_isolation
      [⟨3, [("doc_type", "resume_chunk"), ("file_id", "A"), ("text", "t1")]⟩]
      true 5 ["resume_chunk"] "A" (by decide)⟩

/-- When no stored record carries the requested `file_id`, the strict
(no-fallback) retrieval returns no texts, after exactly one embedding
call. -/
theorem retrieve_texts_strict_empty (store : List Match) (embedOk : Bool)
    (top_k : Nat) (doc_types : List String) (fid : String) (hfid : fid ≠ "")
    (hstore : ∀ m ∈ store, m.metadata.lookup "file_id" ≠ some fid) :
    (retrieve_texts store embedOk top_k doc_types (some fid) false).texts = [] ∧
    (retrieve_texts store embedOk top_k doc_types (some fid) false).embedCalls = 1 := by
  cases embedOk with
  | false => exact ⟨rfl, rfl⟩
  | true =>
    have hfd := buildFilter_file_id doc_types fid hfid
    have harg : (if buildFilter doc_types (some fid) = (⟨none, none⟩ : MetaFilter)
        then (none : Option MetaFilter) else some (buildFilter doc_types (some fid)))
        = some (buildFilter doc_types (some fid)) := by
      rw [if_neg]
      intro hcontra
      rw [hcontra] at hfd
      exact Option.noConfusion hfd
    have hq : indexQuery store (some (buildFilter doc_types (some fid))) top_k = [] := by
      refine indexQuery_eq_nil store _ top_k (fun m hm => ?_)
      simp only [matchesFilter, hfd, optFileIdHolds]
      have : (m.metadata.lookup "file_id" == some fid) = false := by
        simpa using hstore m hm
      rw [this]
      exact Bool.and_false _
    unfold retrieve_texts
    simp only [harg, hq, Bool.false_and, Bool.and_false, if_false, Bool.not_true,
      Bool.false_eq_true, List.isEmpty_nil, Bool.and_true, Bool.true_and]
    exact ⟨rfl, trivial⟩

/-- C3 (counterexample): a chat request whose `file_id` was never
uploaded does return the fixed instructional message with no generative
call, but one embedding-model call is made (the query is embedded before
the index is consulted), so "no model call is made" fails on the code. -/
theorem chat_unknown_file_cex :
    (chat_model [] true "some model reply" "f").response = chatMsgNoResume ∧
    (chat_model [] true "some model reply" "f").generativeCalled = false ∧
    (chat_model [] true "some model reply" "f").embedCalls = 1 := by
  refine ⟨?_, rfl, rfl⟩
  rfl

/-- C3 (amended): for every chat request whose (non-empty) `file_id` has
no resume chunks in the index, the handler returns the fixed
instructional "please upload" message rather than an error status, and no
generative-model call is made — though exactly one embedding-model call
is issued for the query. -/
theorem chat_unknown_file (store : List Match) (embedOk : Bool) (reply : String)
    (fid : String) (hfid : fid ≠ "")
    (hstore : ∀ m ∈ store, m.metadata.lookup "file_id" ≠ some fid) :
    chat_model store embedOk reply fid = ⟨chatMsgNoResume, false, 1⟩ := by
  obtain ⟨ht, he⟩ := retrieve_texts_strict_empty store embedOk 5 ["resume_chunk"]
    fid hfid hstore
  unfold chat_model
  rw [if_neg hfid]
  simp only [ht, he, List.isEmpty_nil, if_true]

theorem chat_unknown_file_witness :
    (("f" : String) ≠ "" ∧
      (∀ m ∈ ([] : List Match), m.metadata.lookup "file_id" ≠ some "f")) ∧
    chat_model [] true "some reply" "f" =
      ⟨chatMsgNoResume, false, 1⟩ :=
  ⟨⟨by decide, by simp⟩,
    chat_unknown_file [] true "some reply" "f" (by decide) (by simp)⟩

/-- C5 (counterexample): with several requested doc_types the code's
retry filter is an equality on `doc_types[0]` only, not the
set-membership filter the spec's construction rule prescribes.  For a
store holding one record of `doc_type = "b"` and a query for
`doc_types = ["a", "b"]` with an unknown `file_id`, a retry filtered by
`doc_type ∈ ["a", "b"]` (the spec-modelled variant) returns that record,
but the code's retry — equality with `"a"` — returns nothing. -/
theorem retrieve_texts_fallback_cex :
    (retrieve_texts [⟨1, [("doc_type", "b"), ("text", "hello")]⟩]
        true 5 ["a", "b"] (some "F") true).texts = [] ∧
    (retrieve_texts_specFallback [⟨1, [("doc_type", "b"), ("text", "hello")]⟩]
        true 5 ["a", "b"] (some "F") true).texts = ["hello"] := by
  refine ⟨?_, ?_⟩ <;> rfl

/-- C5 (amended): with `allow_fallback = True`, a truthy `file_id`,
non-empty `doc_types` and a primary query returning zero matches, exactly
one retry query is issued, whose filter is the equality
`doc_type = doc_types[0]` (the first requested doc_type — not the `$in`
construction used for the primary filter) with no `file_id` condition,
and the retry's results, if any, are returned. -/
theorem retrieve_texts_fallback (store : List Match) (top_k : Nat) (d : String)
    (ds : List String) (fid : String) (hfid : fid ≠ "")
    (hprimary : indexQuery store (some (buildFilter (d :: ds) (some fid))) top_k = []) :
    retrieve_texts store true top_k (d :: ds) (some fid) true =
      ⟨processMatches (indexQuery store (some ⟨some (.eq d), none⟩) top_k), 1,
        [some (buildFilter (d :: ds) (some fid)), some ⟨some (.eq d), none⟩]⟩ := by
  have hfd := buildFilter_file_id (d :: ds) fid hfid
  have harg : (if buildFilter (d :: ds) (some fid) = (⟨none, none⟩ : MetaFilter)
      then (none : Option MetaFilter) else some (buildFilter (d :: ds) (some fid)))
      = some (buildFilter (d :: ds) (some fid)) := by
    rw [if_neg]
    intro hcontra
    rw [hcontra] at hfd
    exact Option.noConfusion hfd
  have htruthy : pyTruthyOpt (some fid) = true := by
    simp [pyTruthyOpt, hfid]
  unfold retrieve_texts
  simp only [harg, hprimary, htruthy, List.isEmpty_nil, List.isEmpty_cons,
    List.headD_cons, Bool.not_false, Bool.not_true, Bool.true_and, Bool.and_true,
    Bool.and_self, if_true, if_false]
  simp

theorem retrieve_texts_fallback_witness :
    (("F" : String) ≠ "" ∧
      indexQuery [⟨1, [("doc_type", "a"), ("text", "qa")]⟩]
        (some (buildFilter ["a", "b"] (some "F"))) 5 = []) ∧
    retrieve_texts [⟨1, [("doc_type", "a"), ("text", "qa")]⟩]
        true 5 ["a", "b"] (some "F") true =
      ⟨processMatches
          (indexQuery [⟨1, [("doc_type", "a"), ("text", "qa")]⟩]
            (some ⟨some (.eq "a"), none⟩) 5), 1,
        [some (buildFilter ["a", "b"] (some "F")), some ⟨some (.eq "a"), none⟩]⟩ :=
  ⟨⟨by decide, by decide⟩,
    retrieve_texts_fallback [⟨1, [("doc_type", "a"), ("text", "qa")]⟩]
      5 "a" ["b"] "F" (by decide) (by decide)⟩

/-- A freshly saved analysis is found again under its hash. -/
theorem lookup_save_resume_analysis {α : Type} (db : List (String × α × String))
    (rh : String) (a : α) (m : String) :
    (save_resume_analysis db rh a m).lookup rh = some (a, m) := by
  unfold save_resume_analysis
  simp [List.lookup]

/-- C1: for every pair of uploads with identical extracted resume text
(both classified as valid resumes), the computed `resume_hash` is the
same hash of the same text both times; on the second upload the
persistent cache is consulted and returns the stored analysis, so
`analyze_resume` is not invoked again and the stored row is unchanged.
Quantifying over `sha256hex` covers the external `hashlib.sha256`
hexdigest. -/
theorem upload_resume_cache_hit {α : Type} (sha256hex : String → String)
    (analyzeFn : String → α) (text : String)
    (db : List (String × α × String))
    (htext : (pyStrip text.toList).isEmpty = false) :
    (upload_resume_model sha256hex analyzeFn text true db).resume_hash
        = some (sha256hex text) ∧
    (upload_resume_model sha256hex analyzeFn text true
        (upload_resume_model sha256hex analyzeFn text true db).db).resume_hash
        = (upload_resume_model sha256hex analyzeFn text true db).resume_hash ∧
    (upload_resume_model sha256hex analyzeFn text true
        (upload_resume_model sha256hex analyzeFn text true db).db).analyzeCalled
        = false ∧
    (upload_resume_model sha256hex analyzeFn text true
        (upload_resume_model sha256hex analyzeFn text true db).db).analysis
        = (upload_resume_model sha256hex analyzeFn text true db).analysis ∧
    (upload_resume_model sha256hex analyzeFn text true
        (upload_resume_model sha256hex analyzeFn text true db).db).db
        = (upload_resume_model sha256hex analyzeFn text true db).db := by
  have hhash : (if (pyStrip text.toList).isEmpty
      then (none : Option String) else some (sha256hex text)) = some (sha256hex text) := by
    rw [htext]
    simp
  cases hdb : db.lookup (sha256hex text) with
  | some row =>
    have hfirst : upload_resume_model sha256hex analyzeFn text true db =
        ⟨some (sha256hex text), some row.1, db, false⟩ := by
      unfold upload_resume_model
      rw [hhash]
      simp only [get_resume_analysis, hdb]
      rfl
    rw [hfirst]
    simp only [hfirst]
    simp
  | none =>
    have hfirst : upload_resume_model sha256hex analyzeFn text true db =
        ⟨some (sha256hex text), some (analyzeFn text),
          save_resume_analysis db (sha256hex text) (analyzeFn text) "resume-coach-llm",
          true⟩ := by
      unfold upload_resume_model
      rw [hhash]
      simp only [get_resume_analysis, hdb]
      rfl
    have hsecond : upload_resume_model sha256hex analyzeFn text true
        (save_resume_analysis db (sha256hex text) (analyzeFn text) "resume-coach-llm") =
        ⟨some (sha256hex text), some (analyzeFn text),
          save_resume_analysis db (sha256hex text) (analyzeFn text) "resume-coach-llm",
          false⟩ := by
      unfold upload_resume_model
      rw [hhash]
      simp only [get_resume_analysis, lookup_save_resume_analysis]
      rfl
    rw [hfirst]
    simp only [hsecond]
    simp

theorem upload_resume_cache_hit_witness :
    ((pyStrip ("Jane Doe resume").toList).isEmpty = false) ∧
    ((upload_resume_model (fun s => s ++ "#h") (fun s => s ++ "#a")
        "Jane Doe resume" true ([] : List (String × String × String))).resume_hash
        = some ("Jane Doe resume" ++ "#h") ∧
    (upload_resume_model (fun s => s ++ "#h") (fun s => s ++ "#a") "Jane Doe resume" true
        (upload_resume_model (fun s => s ++ "#h") (fun s => s ++ "#a")
          "Jane Doe resume" true ([] : List (String × String × String))).db).resume_hash
        = (upload_resume_model (fun s => s ++ "#h") (fun s => s ++ "#a")
            "Jane Doe resume" true ([] : List (String × String × String))).resume_hash ∧
    (upload_resume_model (fun s => s ++ "#h") (fun s => s ++ "#a") "Jane Doe resume" true
        (upload_resume_model (fun s => s ++ "#h") (fun s => s ++ "#a")
          "Jane Doe resume" true ([] : List (String × String × String))).db).analyzeCalled
        = false ∧
    (upload_resume_model (fun s => s ++ "#h") (fun s => s ++ "#a") "Jane Doe resume" true
        (upload_resume_model (fun s => s ++ "#h") (fun s => s ++ "#a")
          "Jane Doe resume" true ([] : List (String × String × String))).db).analysis
        = (upload_resume_model (fun s => s ++ "#h") (fun s => s ++ "#a")
            "Jane Doe resume" true ([] : List (String × String × String))).analysis ∧
    (upload_resume_model (fun s => s ++ "#h") (fun s => s ++ "#a") "Jane Doe resume" true
        (upload_resume_model (fun s => s ++ "#h") (fun s => s ++ "#a")
          "Jane Doe resume" true ([] : List (String × String × String))).db).db
        = (upload_resume_model (fun s => s ++ "#h") (fun s => s ++ "#a")
            "Jane Doe resume" true ([] : List (String × String × String))).db) :=
  ⟨by decide,
    upload_resume_cache_hit (fun s => s ++ "#h") (fun s => s ++ "#a")
      "Jane Doe resume" [] (by decide)⟩

/-- C7 (counterexample): a model output that is valid JSON but not an
object — here the output `"42"`, which `json.loads` parses to the number
42 — makes the field-extraction step raise (Python `in` / `.get` on a
non-dict), so the request fails instead of producing a default-filled
result. -/
theorem analyze_resume_nondict_cex :
    analyze_resume_model (fun _ => some (JsonVal.num 42)) (some ['4', '2']) =
      .error () := rfl

/-- C7 (amended): whenever the model output is empty, fails to parse as
JSON, or parses to a JSON object, `analyze_resume` produces a result with
exactly the ten fixed fields, and every field missing from the parsed
object (under both its snake_case and camelCase names) is populated with
its default — in particular an object with no `gaps` key yields
`gaps = []`.  (Model output parsing to a non-object JSON value instead
raises, per the counterexample.) -/
theorem analyze_resume_defaults (jsonLoads : List Char → Option JsonVal)
    (respText : Option (List Char))
    (hobj : ∀ v, jsonLoads (isolateBraces (pyStrip (respText.getD []))) = some v →
      ∃ fields, v = JsonVal.obj fields) :
    ∃ r, analyze_resume_model jsonLoads respText = .ok r ∧
      r.map Prod.fst = defaultAnalysis.map Prod.fst ∧
      (jsonLoads (isolateBraces (pyStrip (respText.getD []))) = none →
        r = defaultAnalysis) ∧
      (∀ key ∈ defaultAnalysis.map Prod.fst, ∀ fields,
        jsonLoads (isolateBraces (pyStrip (respText.getD []))) = some (.obj fields) →
        fields.lookup key = none → fields.lookup (camelOf key) = none →
        r.lookup key = defaultAnalysis.lookup key) := by
  simp only [analyze_resume_model]
  by_cases hraw : (pyStrip (respText.getD [])).isEmpty = true
  · rw [if_pos hraw]
    exact ⟨defaultAnalysis, rfl, rfl, fun _ => rfl,
      fun key hkey fields hl h1 h2 => rfl⟩
  · rw [if_neg hraw]
    cases hload : jsonLoads (isolateBraces (pyStrip (respText.getD []))) with
    | none =>
      refine ⟨analyzeFields [], ?_, rfl, fun _ => rfl, ?_⟩
      · simp only [hload, Option.getD]
      · intro key hkey fields hl h1 h2
        exact Option.noConfusion hl
    | some v =>
      obtain ⟨fields, rfl⟩ := hobj v hload
      refine ⟨analyzeFields fields, ?_, rfl, ?_, ?_⟩
      · simp only [hload, Option.getD]
      · intro hnone
        exact Option.noConfusion hnone
      · intro key hkey fields2 hl h1 h2
        have hf : fields2 = fields := by
          simpa using hl.symm
        rw [hf] at h1 h2
        simp only [defaultAnalysis, List.map_cons, List.map_nil, List.mem_cons,
          List.not_mem_nil, or_false] at hkey
        rcases hkey with rfl | rfl | rfl | rfl | rfl | rfl | rfl | rfl | rfl | rfl <;>
          · simp only [camelOf] at h2
            simp [analyzeFields, defaultAnalysis, List.lookup, get2, h1, h2,
              orEmptyList, truthy]

theorem analyze_resume_defaults_witness :
    (∀ v, (fun _ => (none : Option JsonVal))
        (isolateBraces (pyStrip ((some ['x'] : Option (List Char)).getD []))) = some v →
      ∃ fields, v = JsonVal.obj fields) ∧
    ∃ r, analyze_resume_model (fun _ => (none : Option JsonVal)) (some ['x']) = .ok r ∧
      r.map Prod.fst = defaultAnalysis.map Prod.fst ∧
      ((fun _ => (none : Option JsonVal))
          (isolateBraces (pyStrip ((some ['x'] : Option (List Char)).getD []))) = none →
        r = defaultAnalysis) ∧
      (∀ key ∈ defaultAnalysis.map Prod.fst, ∀ fields,
        (fun _ => (none : Option JsonVal))
            (isolateBraces (pyStrip ((some ['x'] : Option (List Char)).getD []))) =
          some (.obj fields) →
        fields.lookup key = none → fields.lookup (camelOf key) = none →
        r.lookup key = defaultAnalysis.lookup key) :=
  ⟨fun _ h => Option.noConfusion h,
    analyze_resume_defaults (fun _ => none) (some ['x'])
      (fun _ h => Option.noConfusion h)⟩

theorem chunk_text_roundtrip_witness :
    1 < 2 ∧ dechunk 1 (chunk_text ['a', 'b', 'c'] 2 1) = ['a', 'b', 'c'] :=
  ⟨by decide, chunk_text_roundtrip ['a', 'b', 'c'] 2 1 (by decide)⟩
